import Mathlib

/-!
# Reader side of the Varnish shared memory log: `lib/libvarnishapi/vsl.c`

A shallow embedding of the segment handle (`struct VSL_data`), of the
opener / closer / rotation monitor (`vsl_open`, `VSL_Close`, `VSL_ReOpen`),
of the chunk iterator (`vsl_iter0`, `vsl_itern`) and of the named allocation
lookup (`vsl_find_alloc`, `VSL_Find_Alloc`).

Conventions of the embedding.

* Pointers are natural numbers, `NULL` is `0`.
* A C function that can fail an assertion, spin forever or (in the model of a
  loop) run out of fuel returns `Except Stop _`.
* System calls do not run: the value each one returns is an input of the
  function that makes the call (`OpenEnv`, `CloseEnv`, `ReOpenEnv`).
* The mapped segment is read through a snapshot `Shm` taken at the time of the
  call, since the writer may change it between two calls.
* Calls of the diagnostic sink `vd->diag(vd->priv, ...)` are recorded as a list
  of `Diag` values returned next to the result.
* Layout facts and constants that live in headers outside this file
  (`shmlog.h`, `vslapi.h`, `miniobj.h`, `sys/mman.h`) are the fields of
  `Params`.
-/

namespace Vsl

/-- The null pointer; addresses (`void *`) are natural numbers. -/
def NULL : Nat := 0

/-- Constants and layout facts that `vsl.c` takes from headers: the object
magics, `MAP_FAILED`, `sizeof(struct vsm_head)`, `sizeof(struct vsm_chunk)`
and `offsetof(struct vsm_head, head)`. -/
structure Params where
  VSL_MAGIC : Nat
  VSM_HEAD_MAGIC : Nat
  VSM_CHUNK_MAGIC : Nat
  MAP_FAILED : Nat
  sizeof_vsm_head : Nat
  sizeof_vsm_chunk : Nat
  offsetof_head : Nat
deriving DecidableEq

/-- Ways in which a call does not return: a failed `assert` / `AN` /
`CHECK_OBJ_NOTNULL`, a loop of the source that can never exit, or the fuel of
the model of a loop running out. -/
inductive Stop where
  | assert_failed
  | spin
  | out_of_fuel
deriving DecidableEq

deriving instance DecidableEq for Except

/-- The fields of `struct stat` that `vsl.c` reads. -/
structure stat where
  st_mode : Nat
  st_dev : Nat
  st_ino : Nat
deriving DecidableEq

/-- The test `S_ISREG(m)`: `(m & S_IFMT) == S_IFREG`. -/
def S_ISREG (m : Nat) : Bool := (m &&& 0o170000) == 0o100000

/-- The fields of `struct vsm_head` that `vsl.c` reads from the copy `slh`
obtained with `read(2)`. -/
structure vsm_head where
  magic : Nat
  shm_size : Nat
  alloc_seq : Nat
deriving DecidableEq

/-- A chunk header, `struct vsm_chunk`. The three character arrays are held as
the C strings they contain. -/
structure vsm_chunk where
  magic : Nat
  len : Nat
  class_ : List Char
  type : List Char
  ident : List Char
deriving DecidableEq

/-- What a reader sees through `vd->vsl_lh` at one instant: the allocation
epoch in the mapped header and the chunk header found at each address. -/
structure Shm where
  alloc_seq : Nat
  chunk : Nat → vsm_chunk

/-- The fields of `struct VSL_data` used by the segment access layer. -/
structure VSL_data where
  magic : Nat
  vsl_fd : Int
  vsl_lh : Nat
  vsl_end : Nat
  alloc_seq : Nat
  fstat : stat
  r_fd : Int
  regflags : Nat
  rbuflen : Nat
deriving DecidableEq

/-- One call of the diagnostic sink, named after the message it carries. -/
inductive Diag where
  | cannot_open
  | not_regular
  | cannot_read
  | wrong_magic
  | cannot_mmap
deriving DecidableEq

/-- Results of the system calls made by one call of `vsl_open`: `open`,
`fstat` (return value and the buffer it fills), `read` (return value and the
header it fills) and `mmap`. -/
structure OpenEnv where
  open_ret : Int
  fstat_ret : Int
  st : stat
  read_ret : Int
  slh : vsm_head
  mmap_ret : Nat
deriving DecidableEq

/-- Results of the system calls made by `VSL_Close`: `munmap` and `close`. -/
structure CloseEnv where
  munmap_ret : Int
  close_ret : Int
deriving DecidableEq

/-- Results of the system calls made by `VSL_ReOpen`: `stat` of the backing
path, those of `VSL_Close`, and those of the successive `vsl_open` calls,
numbered from 0. -/
structure ReOpenEnv where
  stat_ret : Int
  st : stat
  close_env : CloseEnv
  opens : Nat → OpenEnv

/-- The result of a call that returns a value, updates the handle and may have
called the diagnostic sink. -/
structure Ret (α : Type) where
  val : α
  vd : VSL_data
  diags : List Diag
deriving DecidableEq

/-! ## Handle construction -/

/-- The function `VSL_New`: `ALLOC_OBJ` zeroes the object and sets the magic;
then the descriptors are set to `-1`. -/
def VSL_New (K : Params) : VSL_data :=
  { magic := K.VSL_MAGIC
    vsl_fd := -1
    vsl_lh := NULL
    vsl_end := NULL
    alloc_seq := 0
    fstat := ⟨0, 0, 0⟩
    r_fd := -1
    regflags := 0
    rbuflen := 256 }

/-! ## Segment opener -/

/-- The diagnostic call guarded by `if (diag)`. -/
def diag_if (diag : Int) (d : Diag) : List Diag :=
  if diag ≠ 0 then [d] else []

/-- The function `vsl_open`. The final `while (slh.alloc_seq == 0) usleep(...)`
tests the local copy `slh`, which nothing changes inside the loop: when it is
entered it never exits (`Stop.spin`). -/
def vsl_open (K : Params) (vd : VSL_data) (e : OpenEnv) (diag : Int) :
    Except Stop (Ret Int) :=
  if vd.vsl_lh ≠ NULL then
    .ok ⟨0, vd, []⟩
  else
    let vd1 := { vd with vsl_fd := e.open_ret }
    if vd1.vsl_fd < 0 then
      .ok ⟨1, vd1, diag_if diag .cannot_open⟩
    else if e.fstat_ret ≠ 0 then
      .error .assert_failed
    else
      let vd2 := { vd1 with fstat := e.st }
      if !S_ISREG vd2.fstat.st_mode then
        .ok ⟨1, vd2, diag_if diag .not_regular⟩
      else if e.read_ret ≠ (K.sizeof_vsm_head : Int) then
        .ok ⟨1, vd2, diag_if diag .cannot_read⟩
      else if e.slh.magic ≠ K.VSM_HEAD_MAGIC then
        .ok ⟨1, vd2, diag_if diag .wrong_magic⟩
      else
        let vd3 := { vd2 with vsl_lh := e.mmap_ret }
        if vd3.vsl_lh = K.MAP_FAILED then
          .ok ⟨1, vd3, diag_if diag .cannot_mmap⟩
        else
          let vd4 := { vd3 with vsl_end := vd3.vsl_lh + e.slh.shm_size }
          if e.slh.alloc_seq = 0 then
            .error .spin
          else
            .ok ⟨0, { vd4 with alloc_seq := e.slh.alloc_seq }, []⟩

/-- The function `VSL_Open`. -/
def VSL_Open (K : Params) (vd : VSL_data) (e : OpenEnv) (diag : Int) :
    Except Stop (Ret Int) :=
  vsl_open K vd e diag

/-! ## Close -/

/-- The function `VSL_Close`; each `assert` that fails stops the program. -/
def VSL_Close (vd : VSL_data) (e : CloseEnv) : Except Stop VSL_data :=
  if vd.vsl_lh = NULL then
    .ok vd
  else if e.munmap_ret ≠ 0 then
    .error .assert_failed
  else
    let vd1 := { vd with vsl_lh := NULL }
    if ¬ (vd1.vsl_fd ≥ 0) then
      .error .assert_failed
    else if e.close_ret ≠ 0 then
      .error .assert_failed
    else
      .ok { vd1 with vsl_fd := -1 }

/-! ## Rotation monitor -/

/-- Prepend the diagnostics of an earlier step to those of a later result. -/
def Ret.after {α : Type} (dg : List Diag) (r : Ret α) : Ret α :=
  { r with diags := dg ++ r.diags }

/-- The tail of `VSL_ReOpen` after `VSL_Close`: `n` iterations of
`for (i = 0; i < 5; i++)` remain, the next attempt has number `i`; when the
loop is exhausted the final attempt is made with the caller's flag. -/
def VSL_ReOpen_loop (K : Params) (opens : Nat → OpenEnv) (diag : Int) :
    Nat → Nat → VSL_data → Except Stop (Ret Int)
  | 0, i, vd =>
    match vsl_open K vd (opens i) diag with
    | .error s => .error s
    | .ok r => if r.val ≠ 0 then .ok ⟨-1, r.vd, r.diags⟩ else .ok ⟨1, r.vd, r.diags⟩
  | n + 1, i, vd =>
    match vsl_open K vd (opens i) 0 with
    | .error s => .error s
    | .ok r =>
      if r.val = 0 then .ok ⟨1, r.vd, r.diags⟩
      else
        match VSL_ReOpen_loop K opens diag n (i + 1) r.vd with
        | .error s => .error s
        | .ok r2 => .ok (r2.after r.diags)

/-- The function `VSL_ReOpen`. -/
def VSL_ReOpen (K : Params) (vd : VSL_data) (e : ReOpenEnv) (diag : Int) :
    Except Stop (Ret Int) :=
  if vd.vsl_lh = NULL then
    .error .assert_failed
  else if e.stat_ret ≠ 0 then
    .ok ⟨0, vd, []⟩
  else if e.st.st_dev = vd.fstat.st_dev ∧ e.st.st_ino = vd.fstat.st_ino then
    .ok ⟨0, vd, []⟩
  else
    match VSL_Close vd e.close_env with
    | .error s => .error s
    | .ok vd1 => VSL_ReOpen_loop K e.opens diag 5 0 vd1

/-! ## Chunk iterator -/

/-- Modelled from the spec: `CHECK_OBJ_NOTNULL` of `miniobj.h`, which asserts
that the pointer is not null and that the object carries the expected magic
("fatal fault on mismatch"). For the handle itself, which is a value here,
only the magic is compared. -/
def CHECK_OBJ_NOTNULL (p : Nat) (magic expected : Nat) : Bool :=
  p != NULL && magic == expected

/-- Modelled from the spec: `VSM_NEXT` of `shmlog.h`, "the next chunk address
as `current + current.length`". -/
def VSM_NEXT (shm : Shm) (p : Nat) : Nat := p + (shm.chunk p).len

/-- Modelled from the spec: `VSM_PTR` of `shmlog.h`, the payload address, that
is the address right after the chunk header. -/
def VSM_PTR (K : Params) (p : Nat) : Nat := p + K.sizeof_vsm_chunk

/-- The address `&vd->vsl_lh->head`. -/
def head_addr (K : Params) (vd : VSL_data) : Nat := vd.vsl_lh + K.offsetof_head

/-- The function `vsl_iter0`. -/
def vsl_iter0 (K : Params) (vd : VSL_data) (shm : Shm) : Except Stop Nat :=
  if vd.magic ≠ K.VSL_MAGIC then
    .error .assert_failed
  else if vd.alloc_seq ≠ shm.alloc_seq then
    .ok NULL
  else if !CHECK_OBJ_NOTNULL (head_addr K vd) (shm.chunk (head_addr K vd)).magic
      K.VSM_CHUNK_MAGIC then
    .error .assert_failed
  else
    .ok (head_addr K vd)

/-- The function `vsl_itern`; `pp` is the value of `*pp` on entry and the
result is its value on return. -/
def vsl_itern (K : Params) (vd : VSL_data) (shm : Shm) (pp : Nat) : Except Stop Nat :=
  if vd.magic ≠ K.VSL_MAGIC then
    .error .assert_failed
  else if vd.alloc_seq ≠ shm.alloc_seq then
    .ok NULL
  else if !CHECK_OBJ_NOTNULL pp (shm.chunk pp).magic K.VSM_CHUNK_MAGIC then
    .error .assert_failed
  else
    let p1 := VSM_NEXT shm pp
    if p1 ≥ vd.vsl_end then
      .ok NULL
    else if !CHECK_OBJ_NOTNULL p1 (shm.chunk p1).magic K.VSM_CHUNK_MAGIC then
      .error .assert_failed
    else
      .ok p1

/-! ## Named allocation lookup -/

/-- The C library function `strcmp` on the strings held in two character
arrays (the characters before the terminator): zero when they are equal,
negative or positive according to the first place where they differ, the
shorter string coming first. Only the sign is specified by C; it is given
here as `-1`, `0` or `1`. -/
def strcmp : List Char → List Char → Int
  | [], [] => 0
  | [], _ :: _ => -1
  | _ :: _, [] => 1
  | a :: as, b :: bs => if a = b then strcmp as bs else if a.toNat < b.toNat then -1 else 1

/-- The test `arg != NULL && strcmp(field, arg)`; an argument that is `NULL`
in C is `none`. -/
def arg_differs (field : List Char) : Option (List Char) → Bool
  | none => false
  | some a => strcmp field a != 0

/-- The body of the `VSL_FOREACH` loop in `vsl_find_alloc`: `false` stands for
`continue`, `true` for `return (sha)`. -/
def find_body (c : vsm_chunk) (class_ : List Char) (type ident : Option (List Char)) : Bool :=
  if strcmp c.class_ class_ ≠ 0 then false
  else if arg_differs c.type type then false
  else if arg_differs c.ident ident then false
  else true

/-- Modelled from the spec: the loop `VSL_FOREACH(sha, vd)` of `vslapi.h`, a
"linear scan via the Chunk Iterator", that is
`for (sha = vsl_iter0(vd); sha != NULL; vsl_itern(vd, &sha))`, here entered
with the current `sha` and with the body of `vsl_find_alloc`. Each test
of the loop condition uses one unit of fuel. -/
def vsl_find_alloc_loop (K : Params) (vd : VSL_data) (shm : Shm) (class_ : List Char)
    (type ident : Option (List Char)) : Nat → Nat → Except Stop Nat
  | 0, _ => .error .out_of_fuel
  | n + 1, sha =>
    if sha = NULL then .ok NULL
    else if !CHECK_OBJ_NOTNULL sha (shm.chunk sha).magic K.VSM_CHUNK_MAGIC then
      .error .assert_failed
    else if find_body (shm.chunk sha) class_ type ident then .ok sha
    else
      match vsl_itern K vd shm sha with
      | .error s => .error s
      | .ok sha1 => vsl_find_alloc_loop K vd shm class_ type ident n sha1

/-- The function `vsl_find_alloc`, the segment not changing during the scan. -/
def vsl_find_alloc (K : Params) (vd : VSL_data) (shm : Shm) (class_ : List Char)
    (type ident : Option (List Char)) (fuel : Nat) : Except Stop Nat :=
  if vd.vsl_lh = NULL then
    .error .assert_failed
  else
    match vsl_iter0 K vd shm with
    | .error s => .error s
    | .ok sha => vsl_find_alloc_loop K vd shm class_ type ident fuel sha

/-- The assignment `*lenp = sha->len - sizeof *sha`: the difference is taken
in `size_t` and stored in an `unsigned` of 32 bits. -/
def payload_len (K : Params) (c : vsm_chunk) : Nat :=
  (((c.len : Int) - (K.sizeof_vsm_chunk : Int)) % 4294967296).toNat

/-- The function `VSL_Find_Alloc`. The argument `lenp` is `none` for a null
pointer and else holds the value stored at `*lenp`; the second component of the
result is that content on return. -/
def VSL_Find_Alloc (K : Params) (vd : VSL_data) (shm : Shm) (class_ : List Char)
    (type ident : Option (List Char)) (lenp : Option Nat) (fuel : Nat) :
    Except Stop (Nat × Option Nat) :=
  if vd.magic ≠ K.VSL_MAGIC then
    .error .assert_failed
  else
    match vsl_find_alloc K vd shm class_ type ident fuel with
    | .error s => .error s
    | .ok sha =>
      if sha = NULL then .ok (NULL, lenp)
      else .ok (VSM_PTR K sha, lenp.map (fun _ => payload_len K (shm.chunk sha)))

/-! ## Notions used to state the properties -/

/-- Successive calls of `vsl_itern`, one per snapshot of the segment, each
starting from the reference the previous call left. -/
def vsl_itern_seq (K : Params) (vd : VSL_data) : List Shm → Nat → Except Stop Nat
  | [], pp => .ok pp
  | s :: rest, pp =>
    match vsl_itern K vd s pp with
    | .error e => .error e
    | .ok p => vsl_itern_seq K vd rest p

/-- The iteration `first(), advance(), advance(), ...` on an unchanging
segment: the reference held after `vsl_iter0` and `n` calls of `vsl_itern`. -/
def iter_steps (K : Params) (vd : VSL_data) (shm : Shm) : Nat → Except Stop Nat
  | 0 => vsl_iter0 K vd shm
  | n + 1 =>
    match iter_steps K vd shm n with
    | .error e => .error e
    | .ok p => vsl_itern K vd shm p

/-- Spec side: the address found by starting at `p` and stepping `j` times
by the length of the chunk stood on ("laid out back-to-back"). -/
def walk_addr (shm : Shm) (p : Nat) : Nat → Nat
  | 0 => p
  | j + 1 => walk_addr shm p j + (shm.chunk (walk_addr shm p j)).len

/-- Spec side: `l` is the chunk sequence that starts at `p`: "chunks are laid
out back-to-back starting at `first_chunk`; the sequence ends when the next
computed address would reach or exceed `mapped_end`", and every chunk of it
carries the chunk magic. -/
def chunk_seq_from (K : Params) (shm : Shm) (vend : Nat) : Nat → List Nat → Prop
  | _, [] => False
  | p, [q] =>
    q = p ∧ (shm.chunk p).magic = K.VSM_CHUNK_MAGIC ∧ vend ≤ p + (shm.chunk p).len
  | p, q :: r :: rest =>
    q = p ∧ (shm.chunk p).magic = K.VSM_CHUNK_MAGIC ∧ p + (shm.chunk p).len < vend ∧
      chunk_seq_from K shm vend (p + (shm.chunk p).len) (r :: rest)

/-- Spec side: "a chunk matches when its class equals the argument exactly,
and its type / identifier equal the corresponding argument whenever that
argument is provided". -/
def spec_matches (c : vsm_chunk) (class_ : List Char) (type ident : Option (List Char)) : Prop :=
  c.class_ = class_ ∧ (∀ t, type = some t → c.type = t) ∧ (∀ i, ident = some i → c.ident = i)

/-- The handle invariant of the data model: `vsl_lh` is non-null exactly when
`vsl_fd` is an open descriptor. -/
def handle_inv (vd : VSL_data) : Prop := vd.vsl_lh ≠ NULL ↔ 0 ≤ vd.vsl_fd

instance (vd : VSL_data) : Decidable (handle_inv vd) := by
  unfold handle_inv
  infer_instance

/-- The environment of an attempt describes a valid segment file: it opens,
is a regular file, the header is read whole with the right magic and an
initialised epoch, and the mapping succeeds. -/
def valid_file (K : Params) (e : OpenEnv) : Prop :=
  0 ≤ e.open_ret ∧ e.fstat_ret = 0 ∧ S_ISREG e.st.st_mode = true ∧
    e.read_ret = (K.sizeof_vsm_head : Int) ∧ e.slh.magic = K.VSM_HEAD_MAGIC ∧
    e.mmap_ret ≠ K.MAP_FAILED ∧ e.slh.alloc_seq ≠ 0

instance (K : Params) (e : OpenEnv) : Decidable (valid_file K e) := by
  unfold valid_file
  infer_instance

/-- The environment of an attempt describes a file that is there but fails the
validation of `vsl_open` before any mapping is tried: not a regular file, a
short read, or a wrong header magic. -/
def fails_validation (K : Params) (e : OpenEnv) : Prop :=
  0 ≤ e.open_ret ∧ e.fstat_ret = 0 ∧
    (S_ISREG e.st.st_mode = false ∨ e.read_ret ≠ (K.sizeof_vsm_head : Int) ∨
      e.slh.magic ≠ K.VSM_HEAD_MAGIC)

instance (K : Params) (e : OpenEnv) : Decidable (fails_validation K e) := by
  unfold fails_validation
  infer_instance

/-- The flag passed to attempt number `i` of `VSL_ReOpen`: diagnostics are
suppressed for the five attempts of the loop, the sixth gets the caller's
flag. -/
def attempt_flag (diag : Int) (i : Nat) : Int := if i < 5 then 0 else diag

/-- The handle as `VSL_Close` leaves it when it had a segment to release. -/
def closed (vd : VSL_data) : VSL_data := { vd with vsl_lh := NULL, vsl_fd := -1 }

/-- The result of the `j`-th call of `vsl_open` counted from attempt number
`i` of `VSL_ReOpen`, where `vd` is the handle before attempt `i` and every
attempt is made on the handle the previous one left (whatever that one
returned); a call that stops the program stops the chain. -/
def attempt (K : Params) (opens : Nat → OpenEnv) (diag : Int) :
    Nat → VSL_data → Nat → Except Stop (Ret Int)
  | i, vd, 0 => vsl_open K vd (opens i) (attempt_flag diag i)
  | i, vd, j + 1 =>
    match vsl_open K vd (opens i) (attempt_flag diag i) with
    | .error s => .error s
    | .ok r => attempt K opens diag (i + 1) r.vd j

/-- An attempt returned and did not succeed. -/
def attempt_failed (x : Except Stop (Ret Int)) : Prop := ∃ r, x = .ok r ∧ r.val ≠ 0

/-! ## Concrete segments -/

/-- A concrete layout for the examples: 32 bytes of segment header before the
first chunk and 24 bytes of chunk header; the magics are sample values and
`MAP_FAILED` is `(void *)-1` on a 64 bit machine. -/
def K_scn : Params :=
  { VSL_MAGIC := 0x6e3bd69b
    VSM_HEAD_MAGIC := 4185512500
    VSM_CHUNK_MAGIC := 0x43907b6e
    MAP_FAILED := 18446744073709551615
    sizeof_vsm_head := 56
    sizeof_vsm_chunk := 24
    offsetof_head := 32 }

/-- A handle attached at address 4096 to a segment of `total_size = 64` with
epoch 3. -/
def vd_scn : VSL_data :=
  { magic := 0x6e3bd69b
    vsl_fd := 3
    vsl_lh := 4096
    vsl_end := 4160
    alloc_seq := 3
    fstat := ⟨0o100644, 1, 100⟩
    r_fd := -1
    regflags := 0
    rbuflen := 256 }

/-- Memory that holds no chunk. -/
def no_chunk : vsm_chunk := ⟨0, 0, [], [], []⟩

/-- A chunk of class "top" with the given length. -/
def top_chunk (len : Nat) : vsm_chunk := ⟨0x43907b6e, len, ['t', 'o', 'p'], [], []⟩

/-- The segment of the scenario: a single chunk of class "top" at offset 32
with `len = 32`, which exactly fills the region. -/
def shm_scn : Shm :=
  { alloc_seq := 3
    chunk := fun p => if p = 4128 then top_chunk 32 else no_chunk }

/-- The same handle on a segment of `total_size = 96`. -/
def vd_two : VSL_data := { vd_scn with vsl_end := 4192 }

/-- A segment with two chunks: class "top" at offset 32 and class "log", type
"rec", identifier "a" at offset 64. -/
def shm_two : Shm :=
  { alloc_seq := 3
    chunk := fun p =>
      if p = 4128 then top_chunk 32
      else if p = 4160 then ⟨0x43907b6e, 32, ['l', 'o', 'g'], ['r', 'e', 'c'], ['a']⟩
      else no_chunk }

/-- The segment of `shm_scn` after the writer has moved to epoch 4. -/
def shm_recycled : Shm := { shm_scn with alloc_seq := 4 }

/-- A segment whose first chunk carries the chunk magic and `len = 0`. -/
def shm_zero : Shm :=
  { alloc_seq := 3
    chunk := fun p => if p = 4128 then top_chunk 0 else no_chunk }

/-- A segment whose only chunk has `len = 8`, less than the chunk header. -/
def shm_short : Shm :=
  { alloc_seq := 3
    chunk := fun p => if p = 4128 then top_chunk 8 else no_chunk }

/-! ## Concrete files and rotations -/

/-- A valid segment file of `total_size = 64` at epoch 3, mapped at 4096. -/
def e_valid : OpenEnv :=
  { open_ret := 3
    fstat_ret := 0
    st := ⟨0o100644, 1, 200⟩
    read_ret := 56
    slh := ⟨4185512500, 64, 3⟩
    mmap_ret := 4096 }

/-- The path is a directory: `open` and `fstat` succeed, `S_ISREG` fails. -/
def e_not_regular : OpenEnv := { e_valid with st := ⟨0o040755, 1, 200⟩, read_ret := -1 }

/-- The file does not start with the header magic yet. -/
def e_bad_magic : OpenEnv := { e_valid with slh := ⟨0, 0, 0⟩ }

/-- The file is valid but `mmap` returns `MAP_FAILED`. -/
def e_map_failed : OpenEnv := { e_valid with mmap_ret := 18446744073709551615 }

/-- The path does not exist: `open` returns `-1`. -/
def e_absent : OpenEnv := { e_valid with open_ret := -1 }

/-- A rotation seen from `vd_scn`: `stat` succeeds with another inode,
`munmap` and `close` succeed, and the open attempts see `opens`. -/
def rot_env (opens : Nat → OpenEnv) : ReOpenEnv :=
  { stat_ret := 0
    st := ⟨0o100644, 1, 200⟩
    close_env := ⟨0, 0⟩
    opens := opens }

/-- No rotation: `stat` succeeds with the recorded device and inode. -/
def same_env (opens : Nat → OpenEnv) : ReOpenEnv :=
  { rot_env opens with st := ⟨0o100644, 1, 100⟩ }

/-! ## Chunk iterator: bounds and epoch -/

/-- C1: after `vsl_itern` the reference is `NULL` or an address strictly
below `vsl_end`, and when it is not `NULL` it is the previous address plus the
previous chunk's `len`. -/
theorem vsl_itern_below_end (K : Params) (vd : VSL_data) (shm : Shm) (pp q : Nat)
    (h : vsl_itern K vd shm pp = .ok q) :
    (q = NULL ∨ q < vd.vsl_end) ∧ (q ≠ NULL → q = pp + (shm.chunk pp).len) ∧
      ¬ (q ≠ NULL ∧ vd.vsl_end ≤ q) := by
  unfold vsl_itern at h
  dsimp only at h
  split_ifs at h with h1 h2 h3 h4 h5 <;> simp only [Except.ok.injEq, reduceCtorEq] at h
  · subst h; simp
  · subst h; simp
  · subst h
    simp only [VSM_NEXT, ge_iff_le, not_le] at *
    refine ⟨Or.inr (by assumption), fun _ => trivial, ?_⟩
    rintro ⟨-, hle⟩
    omega

/-- Witness of C1 on the segment with two chunks: from the chunk at 4128 the
call yields the chunk at 4160. -/
theorem vsl_itern_below_end_witness :
    vsl_itern K_scn vd_two shm_two 4128 = .ok 4160 ∧
      ((4160 = NULL ∨ 4160 < vd_two.vsl_end) ∧
        ((4160 : Nat) ≠ NULL → 4160 = 4128 + (shm_two.chunk 4128).len) ∧
        ¬ ((4160 : Nat) ≠ NULL ∧ vd_two.vsl_end ≤ 4160)) :=
  ⟨by decide, vsl_itern_below_end K_scn vd_two shm_two 4128 4160 (by decide)⟩

theorem vsl_iter0_mismatch (K : Params) (vd : VSL_data) (shm : Shm)
    (hm : vd.magic = K.VSL_MAGIC) (he : vd.alloc_seq ≠ shm.alloc_seq) :
    vsl_iter0 K vd shm = .ok NULL := by
  simp [vsl_iter0, hm, he]

theorem vsl_itern_mismatch (K : Params) (vd : VSL_data) (shm : Shm) (pp : Nat)
    (hm : vd.magic = K.VSL_MAGIC) (he : vd.alloc_seq ≠ shm.alloc_seq) :
    vsl_itern K vd shm pp = .ok NULL := by
  simp [vsl_itern, hm, he]

theorem vsl_itern_seq_mismatch (K : Params) (vd : VSL_data) (hm : vd.magic = K.VSL_MAGIC)
    (shms : List Shm) (hne : shms ≠ []) (hall : ∀ s ∈ shms, vd.alloc_seq ≠ s.alloc_seq)
    (pp : Nat) : vsl_itern_seq K vd shms pp = .ok NULL := by
  induction shms generalizing pp with
  | nil => exact absurd rfl hne
  | cons s rest ih =>
    have hs : vd.alloc_seq ≠ s.alloc_seq := hall s (List.mem_cons_self _ _)
    have hrest : ∀ t ∈ rest, vd.alloc_seq ≠ t.alloc_seq :=
      fun t ht => hall t (List.mem_cons_of_mem _ ht)
    simp only [vsl_itern_seq, vsl_itern_mismatch K vd s pp hm hs]
    cases rest with
    | nil => rfl
    | cons t rest2 => exact ih (List.cons_ne_nil _ _) hrest NULL

/-- C2: when the local epoch differs from the epoch of the mapped header at
the time of the call, `vsl_iter0` returns `NULL` and `vsl_itern` sets the
reference to `NULL`, whatever the reference and the chunk contents are; hence
over any run of calls made while the epoch differs, every `vsl_itern` leaves
`NULL`. -/
theorem epoch_change_yields_null (K : Params) (vd : VSL_data) (hm : vd.magic = K.VSL_MAGIC) :
    (∀ shm : Shm, vd.alloc_seq ≠ shm.alloc_seq →
      vsl_iter0 K vd shm = .ok NULL ∧ ∀ pp, vsl_itern K vd shm pp = .ok NULL) ∧
    (∀ shms : List Shm, shms ≠ [] → (∀ s ∈ shms, vd.alloc_seq ≠ s.alloc_seq) →
      ∀ pp, vsl_itern_seq K vd shms pp = .ok NULL) :=
  ⟨fun shm he => ⟨vsl_iter0_mismatch K vd shm hm he,
      fun pp => vsl_itern_mismatch K vd shm pp hm he⟩,
    fun shms hne hall pp => vsl_itern_seq_mismatch K vd hm shms hne hall pp⟩

/-- Witness of C2: `first()` on the segment at epoch 3 yields the chunk at
4128; once the writer is at epoch 4, `advance()` from that chunk yields `NULL`
and so does `first()`. -/
theorem epoch_change_yields_null_witness :
    vsl_iter0 K_scn vd_scn shm_scn = .ok 4128 ∧
      vsl_iter0 K_scn vd_scn shm_recycled = .ok NULL ∧
      vsl_itern K_scn vd_scn shm_recycled 4128 = .ok NULL ∧
      vsl_itern_seq K_scn vd_scn [shm_recycled, shm_recycled] 4128 = .ok NULL :=
  ⟨by decide,
    ((epoch_change_yields_null K_scn vd_scn (by decide)).1 shm_recycled (by decide)).1,
    ((epoch_change_yields_null K_scn vd_scn (by decide)).1 shm_recycled (by decide)).2 4128,
    (epoch_change_yields_null K_scn vd_scn (by decide)).2 [shm_recycled, shm_recycled]
      (by simp) (by simp [shm_recycled, vd_scn]) 4128⟩

/-! ## Opener, close and rotation monitor -/

theorem vsl_open_quiet (K : Params) (vd : VSL_data) (e : OpenEnv) (r : Ret Int)
    (h : vsl_open K vd e 0 = .ok r) : r.diags = [] := by
  unfold vsl_open at h
  dsimp only at h
  split_ifs at h <;> simp only [Except.ok.injEq, reduceCtorEq] at h <;> subst h <;> rfl

theorem vsl_open_val (K : Params) (vd : VSL_data) (e : OpenEnv) (diag : Int) (r : Ret Int)
    (h : vsl_open K vd e diag = .ok r) : r.val = 0 ∨ r.val = 1 := by
  unfold vsl_open at h
  dsimp only at h
  split_ifs at h <;> simp only [Except.ok.injEq, reduceCtorEq] at h <;> subst h <;> simp

theorem VSL_ReOpen_loop_val (K : Params) (opens : Nat → OpenEnv) (diag : Int) (n i : Nat)
    (vd : VSL_data) (r : Ret Int) (h : VSL_ReOpen_loop K opens diag n i vd = .ok r) :
    r.val = 1 ∨ r.val = -1 := by
  induction n generalizing i vd r with
  | zero =>
    unfold VSL_ReOpen_loop at h
    cases hv : vsl_open K vd (opens i) diag with
    | error s => simp [hv] at h
    | ok r0 =>
      simp only [hv] at h
      split_ifs at h <;> simp only [Except.ok.injEq] at h <;> subst h <;> simp
  | succ n ih =>
    unfold VSL_ReOpen_loop at h
    cases hv : vsl_open K vd (opens i) 0 with
    | error s => simp [hv] at h
    | ok r0 =>
      simp only [hv] at h
      split_ifs at h
      · simp only [Except.ok.injEq] at h; subst h; simp
      · cases hl : VSL_ReOpen_loop K opens diag n (i + 1) r0.vd with
        | error s => simp [hl] at h
        | ok r2 =>
          simp only [hl, Except.ok.injEq] at h
          subst h
          simpa [Ret.after] using ih _ _ r2 hl

/-- C8: on an attached handle, when `stat` of the backing path fails or gives
the recorded device and inode, `VSL_ReOpen` returns 0, leaves the handle as it
was and calls no diagnostic, whatever the other system calls would have
answered; and it returns 0 in these two cases only. -/
theorem VSL_ReOpen_unchanged (K : Params) (vd : VSL_data) (e : ReOpenEnv) (diag : Int)
    (hat : vd.vsl_lh ≠ NULL) :
    ((e.stat_ret ≠ 0 ∨ (e.st.st_dev = vd.fstat.st_dev ∧ e.st.st_ino = vd.fstat.st_ino)) →
      VSL_ReOpen K vd e diag = .ok ⟨0, vd, []⟩) ∧
    (∀ r, VSL_ReOpen K vd e diag = .ok r → r.val = 0 →
      (e.stat_ret ≠ 0 ∨ (e.st.st_dev = vd.fstat.st_dev ∧ e.st.st_ino = vd.fstat.st_ino))) := by
  constructor
  · intro h
    unfold VSL_ReOpen
    rw [if_neg hat]
    by_cases hs : e.stat_ret ≠ 0
    · rw [if_pos hs]
    · rw [if_neg hs]
      rcases h with h | h
      · exact absurd h hs
      · rw [if_pos h]
  · intro r hr hv
    by_contra hcon
    rw [not_or] at hcon
    unfold VSL_ReOpen at hr
    rw [if_neg hat, if_neg hcon.1, if_neg hcon.2] at hr
    cases hc : VSL_Close vd e.close_env with
    | error s => simp [hc] at hr
    | ok vd1 =>
      simp only [hc] at hr
      rcases VSL_ReOpen_loop_val K e.opens diag 5 0 vd1 r hr with h1 | h1 <;> omega

/-- Witness of C8: the attached handle of the scenario polled while the path
still names inode 100. -/
theorem VSL_ReOpen_unchanged_witness :
    vd_scn.vsl_lh ≠ NULL ∧
      VSL_ReOpen K_scn vd_scn (same_env (fun _ => e_valid)) 1 = .ok ⟨0, vd_scn, []⟩ :=
  ⟨by decide,
    (VSL_ReOpen_unchanged K_scn vd_scn (same_env (fun _ => e_valid)) 1 (by decide)).1
      (Or.inr ⟨rfl, rfl⟩)⟩

/-- C9: on a detached handle and a valid segment file, `vsl_open` returns 0
without diagnostic, with `vsl_end = vsl_lh + shm_size`, the local epoch equal
to the header's and `fstat` that of the opened file; and on a segment whose
mapped epoch is still the one read and whose first chunk carries the chunk
magic, `vsl_iter0` then yields the first chunk (never `NULL`). -/
theorem vsl_open_valid_then_first (K : Params) (vd : VSL_data) (e : OpenEnv) (diag : Int)
    (shm : Shm) (hmg : vd.magic = K.VSL_MAGIC) (hdet : vd.vsl_lh = NULL)
    (hv : valid_file K e) (hmap : e.mmap_ret ≠ NULL)
    (hep : shm.alloc_seq = e.slh.alloc_seq)
    (hch : (shm.chunk (e.mmap_ret + K.offsetof_head)).magic = K.VSM_CHUNK_MAGIC) :
    ∃ r, vsl_open K vd e diag = .ok r ∧ r.val = 0 ∧ r.diags = [] ∧
      r.vd.vsl_lh = e.mmap_ret ∧ r.vd.vsl_end = e.mmap_ret + e.slh.shm_size ∧
      r.vd.alloc_seq = e.slh.alloc_seq ∧ r.vd.fstat = e.st ∧ r.vd.vsl_fd = e.open_ret ∧
      vsl_iter0 K r.vd shm = .ok (e.mmap_ret + K.offsetof_head) ∧
      e.mmap_ret + K.offsetof_head ≠ NULL ∧
      (shm.chunk (e.mmap_ret + K.offsetof_head)).magic = K.VSM_CHUNK_MAGIC := by
  obtain ⟨h1, h2, h3, h4, h5, h6, h7⟩ := hv
  have hnn : e.mmap_ret + K.offsetof_head ≠ NULL := by
    unfold NULL at hmap ⊢
    omega
  have hopen : vsl_open K vd e diag = .ok ⟨0, { vd with
      vsl_fd := e.open_ret
      fstat := e.st
      vsl_lh := e.mmap_ret
      vsl_end := e.mmap_ret + e.slh.shm_size
      alloc_seq := e.slh.alloc_seq }, []⟩ := by
    unfold vsl_open
    dsimp only
    rw [if_neg (by simp [hdet]), if_neg (by omega), if_neg (by simp [h2])]
    simp [h3, h4, h5, h6, h7]
  refine ⟨_, hopen, rfl, rfl, rfl, rfl, rfl, rfl, rfl, ?_, hnn, hch⟩
  simp [vsl_iter0, hmg, hep, head_addr, CHECK_OBJ_NOTNULL, hnn, hch]

/-- Witness of C9: the valid file of the scenario opened on a new handle, then
`first()` on its segment. -/
theorem vsl_open_valid_then_first_witness :
    ∃ r, vsl_open K_scn (VSL_New K_scn) e_valid 1 = .ok r ∧ r.val = 0 ∧ r.diags = [] ∧
      r.vd.vsl_lh = 4096 ∧ r.vd.vsl_end = 4096 + 64 ∧
      r.vd.alloc_seq = 3 ∧ r.vd.fstat = e_valid.st ∧ r.vd.vsl_fd = 3 ∧
      vsl_iter0 K_scn r.vd shm_scn = .ok (4096 + 32) ∧
      4096 + 32 ≠ NULL ∧
      (shm_scn.chunk (4096 + 32)).magic = K_scn.VSM_CHUNK_MAGIC :=
  vsl_open_valid_then_first K_scn (VSL_New K_scn) e_valid 1 shm_scn rfl rfl
    (by decide) (by decide) rfl (by decide)

theorem vsl_open_spins_on_zero_epoch (K : Params) (vd : VSL_data) (e : OpenEnv) (diag : Int)
    (hdet : vd.vsl_lh = NULL) (h1 : 0 ≤ e.open_ret) (h2 : e.fstat_ret = 0)
    (h3 : S_ISREG e.st.st_mode = true) (h4 : e.read_ret = (K.sizeof_vsm_head : Int))
    (h5 : e.slh.magic = K.VSM_HEAD_MAGIC) (h6 : e.mmap_ret ≠ K.MAP_FAILED)
    (h7 : e.slh.alloc_seq = 0) : vsl_open K vd e diag = .error .spin := by
  unfold vsl_open
  dsimp only
  rw [if_neg (by simp [hdet]), if_neg (by omega), if_neg (by simp [h2])]
  simp [h3, h4, h5, h6, h7]

theorem handle_inv_on_clean_paths (K : Params) (vd : VSL_data) (hinv : handle_inv vd) :
    handle_inv (VSL_New K) ∧
    (∀ e vd2, VSL_Close vd e = .ok vd2 → handle_inv vd2) ∧
    (∀ e diag r, vsl_open K vd e diag = .ok r → e.open_ret < 0 → handle_inv r.vd) ∧
    (∀ e diag r, vsl_open K vd e diag = .ok r → r.val = 0 → e.mmap_ret ≠ NULL →
      handle_inv r.vd) := by
  refine ⟨by simp [handle_inv, VSL_New], ?_, ?_, ?_⟩
  · intro e vd2 h
    unfold VSL_Close at h
    dsimp only at h
    split_ifs at h <;> simp only [Except.ok.injEq, reduceCtorEq] at h
    · subst h; exact hinv
    · subst h; simp [handle_inv]
  · intro e diag r h hneg
    unfold vsl_open at h
    dsimp only at h
    split_ifs at h with c1 <;> simp only [Except.ok.injEq, reduceCtorEq] at h
    · subst h; exact hinv
    · subst h
      have hnull : vd.vsl_lh = NULL := by simpa using c1
      simp only [handle_inv, hnull, ne_eq, not_true_eq_false, false_iff, not_le]
      exact hneg
  · intro e diag r h hval hmap
    unfold vsl_open at h
    dsimp only at h
    split_ifs at h with c1 c2 <;> simp only [Except.ok.injEq, reduceCtorEq] at h <;>
      subst h <;> simp at hval
    · exact hinv
    · simp only [handle_inv, ne_eq, hmap, not_false_eq_true, true_iff]
      omega

/-- C5, the code at a failing input: a new handle satisfies the invariant;
`vsl_open` on a path that is not a regular file returns 1 with the descriptor
still open and no mapping, which breaks the invariant; so does a file with a
wrong header magic. -/
theorem vsl_open_failure_keeps_fd :
    handle_inv (VSL_New K_scn) ∧
    (∃ r, vsl_open K_scn (VSL_New K_scn) e_not_regular 1 = .ok r ∧ r.val = 1 ∧
      r.vd.vsl_lh = NULL ∧ r.vd.vsl_fd = 3 ∧ ¬ handle_inv r.vd) ∧
    (∃ r, vsl_open K_scn (VSL_New K_scn) e_bad_magic 1 = .ok r ∧ r.val = 1 ∧
      r.vd.vsl_lh = NULL ∧ r.vd.vsl_fd = 3 ∧ ¬ handle_inv r.vd) := by
  refine ⟨by simp [handle_inv, VSL_New], ⟨_, rfl, rfl, rfl, rfl, ?_⟩, ⟨_, rfl, rfl, rfl, rfl, ?_⟩⟩
  · simp [handle_inv, VSL_New, NULL, e_not_regular, e_valid]
  · simp [handle_inv, VSL_New, NULL, e_bad_magic, e_valid]

/-- C6, the code at a failing input: after a rotation, when `mmap` fails in
the first open attempt, the second attempt finds `vsl_lh` set to `MAP_FAILED`,
returns 0 at once and `VSL_ReOpen` returns 1 with `vsl_lh = MAP_FAILED`; when
`mmap` fails in the final attempt only, `VSL_ReOpen` returns -1 with
`vsl_lh = MAP_FAILED`, not `NULL`. -/
theorem VSL_ReOpen_keeps_map_failed :
    (∃ r, VSL_ReOpen K_scn vd_scn (rot_env (fun _ => e_map_failed)) 1 = .ok r ∧ r.val = 1 ∧
      r.vd.vsl_lh = K_scn.MAP_FAILED ∧ r.vd.vsl_lh ≠ NULL ∧ r.diags = []) ∧
    (∃ r, VSL_ReOpen K_scn vd_scn
        (rot_env (fun i => if i < 5 then e_absent else e_map_failed)) 1 = .ok r ∧
      r.val = -1 ∧ r.vd.vsl_lh = K_scn.MAP_FAILED ∧ r.vd.vsl_lh ≠ NULL) := by
  refine ⟨⟨_, rfl, rfl, rfl, by decide, rfl⟩, ⟨_, rfl, rfl, rfl, by decide⟩⟩

/-! ## Rotation monitor: the bounded retry -/

theorem Ret.after_nil {α : Type} (r : Ret α) : r.after [] = r := by
  cases r
  simp [Ret.after]

theorem attempt_flag_lt (diag : Int) (i : Nat) (h : i < 5) : attempt_flag diag i = 0 := by
  simp [attempt_flag, h]

theorem attempt_flag_five (diag : Int) : attempt_flag diag 5 = diag := by
  simp [attempt_flag]

theorem attempt_succ_of_ok (K : Params) (opens : Nat → OpenEnv) (diag : Int) (i j : Nat)
    (vd : VSL_data) (r0 : Ret Int)
    (hv : vsl_open K vd (opens i) (attempt_flag diag i) = .ok r0) :
    attempt K opens diag i vd (j + 1) = attempt K opens diag (i + 1) r0.vd j := by
  simp [attempt, hv]

theorem attempt_of_error (K : Params) (opens : Nat → OpenEnv) (diag : Int) (i k : Nat)
    (vd : VSL_data) (s : Stop)
    (hv : vsl_open K vd (opens i) (attempt_flag diag i) = .error s) :
    attempt K opens diag i vd k = .error s := by
  cases k <;> simp [attempt, hv]

theorem VSL_ReOpen_loop_char (K : Params) (opens : Nat → OpenEnv) (diag : Int) (n i : Nat)
    (vd : VSL_data) (hni : n + i = 5) (R : Ret Int) :
    VSL_ReOpen_loop K opens diag n i vd = .ok R ↔
      ∃ k r, k ≤ n ∧ (∀ j, j < k → attempt_failed (attempt K opens diag i vd j)) ∧
        attempt K opens diag i vd k = .ok r ∧
        ((r.val = 0 ∧ R = ⟨1, r.vd, r.diags⟩) ∨ (r.val ≠ 0 ∧ k = n ∧ R = ⟨-1, r.vd, r.diags⟩)) := by
  induction n generalizing i vd with
  | zero =>
    have hi : i = 5 := by omega
    subst hi
    unfold VSL_ReOpen_loop
    constructor
    · intro h
      cases hv : vsl_open K vd (opens 5) diag with
      | error s => simp [hv] at h
      | ok r0 =>
        simp only [hv] at h
        refine ⟨0, r0, le_refl _, fun j hj => absurd hj (Nat.not_lt_zero j), ?_, ?_⟩
        · simp [attempt, attempt_flag_five, hv]
        · by_cases h0 : r0.val = 0
          · left
            simp only [h0, ne_eq, not_true_eq_false, if_false, Except.ok.injEq] at h
            exact ⟨h0, h.symm⟩
          · right
            simp only [ne_eq, h0, not_false_eq_true, if_true, Except.ok.injEq] at h
            exact ⟨h0, rfl, h.symm⟩
    · rintro ⟨k, r, hk, -, hatt, hor⟩
      have hk0 : k = 0 := by omega
      subst hk0
      simp only [attempt, attempt_flag_five] at hatt
      simp only [hatt]
      rcases hor with ⟨h0, hR⟩ | ⟨h0, -, hR⟩
      · simp [h0, hR]
      · simp [h0, hR]
  | succ n ih =>
    have hflag : attempt_flag diag i = 0 := attempt_flag_lt diag i (by omega)
    unfold VSL_ReOpen_loop
    cases hv : vsl_open K vd (opens i) 0 with
    | error s =>
      have hv2 : vsl_open K vd (opens i) (attempt_flag diag i) = .error s := by rw [hflag]; exact hv
      constructor
      · intro h
        simp at h
      · rintro ⟨k, r, -, -, hatt, -⟩
        rw [attempt_of_error K opens diag i k vd s hv2] at hatt
        simp at hatt
    | ok r0 =>
      have hv2 : vsl_open K vd (opens i) (attempt_flag diag i) = .ok r0 := by rw [hflag]; exact hv
      have hq : r0.diags = [] := vsl_open_quiet K vd (opens i) r0 hv
      have hatt0 : attempt K opens diag i vd 0 = .ok r0 := by simp [attempt, hv2]
      by_cases h0 : r0.val = 0
      · simp only [h0, if_true]
        constructor
        · intro h
          simp only [Except.ok.injEq] at h
          exact ⟨0, r0, Nat.zero_le _, fun j hj => absurd hj (Nat.not_lt_zero j), hatt0,
            Or.inl ⟨h0, h.symm⟩⟩
        · rintro ⟨k, r, -, hfail, hatt, hor⟩
          cases k with
          | zero =>
            rw [hatt0] at hatt
            simp only [Except.ok.injEq] at hatt
            subst hatt
            rcases hor with ⟨-, hR⟩ | ⟨hne, -, -⟩
            · rw [hR]
            · exact absurd h0 hne
          | succ k =>
            obtain ⟨r1, hr1, hne⟩ := hfail 0 (Nat.succ_pos k)
            rw [hatt0] at hr1
            simp only [Except.ok.injEq] at hr1
            subst hr1
            exact absurd h0 hne
      · simp only [h0, if_false]
        have hstep : ∀ j, attempt K opens diag i vd (j + 1) =
            attempt K opens diag (i + 1) r0.vd j :=
          fun j => attempt_succ_of_ok K opens diag i j vd r0 hv2
        have hih := ih (i + 1) r0.vd (by omega)
        constructor
        · intro h
          cases hl : VSL_ReOpen_loop K opens diag n (i + 1) r0.vd with
          | error s => simp [hl] at h
          | ok r2 =>
            simp only [hl, Except.ok.injEq, hq, Ret.after_nil] at h
            subst h
            obtain ⟨k, r, hk, hfail, hatt, hor⟩ := hih.mp hl
            refine ⟨k + 1, r, by omega, ?_, ?_, ?_⟩
            · intro j hj
              cases j with
              | zero => exact ⟨r0, hatt0, h0⟩
              | succ j =>
                rw [hstep]
                exact hfail j (by omega)
            · rw [hstep]; exact hatt
            · rcases hor with h1 | ⟨h1, h2, h3⟩
              · exact Or.inl h1
              · exact Or.inr ⟨h1, by omega, h3⟩
        · rintro ⟨k, r, hk, hfail, hatt, hor⟩
          cases k with
          | zero =>
            rw [hatt0] at hatt
            simp only [Except.ok.injEq] at hatt
            subst hatt
            rcases hor with ⟨h1, -⟩ | ⟨-, h2, -⟩
            · exact absurd h1 h0
            · omega
          | succ k =>
            rw [hstep] at hatt
            have hl : VSL_ReOpen_loop K opens diag n (i + 1) r0.vd = .ok R := by
              refine hih.mpr ⟨k, r, by omega, ?_, hatt, ?_⟩
              · intro j hj
                rw [← hstep]
                exact hfail (j + 1) (by omega)
              · rcases hor with h1 | ⟨h1, h2, h3⟩
                · exact Or.inl h1
                · exact Or.inr ⟨h1, by omega, h3⟩
            simp [hl, hq, Ret.after_nil]

theorem VSL_ReOpen_loop_congr (K : Params) (opens opens2 : Nat → OpenEnv) (diag : Int)
    (n i : Nat) (vd : VSL_data) (h : ∀ j, j ≤ i + n → opens2 j = opens j) :
    VSL_ReOpen_loop K opens2 diag n i vd = VSL_ReOpen_loop K opens diag n i vd := by
  induction n generalizing i vd with
  | zero =>
    unfold VSL_ReOpen_loop
    rw [h i (by omega)]
  | succ n ih =>
    unfold VSL_ReOpen_loop
    rw [h i (by omega)]
    cases hv : vsl_open K vd (opens i) 0 with
    | error s => rfl
    | ok r0 =>
      simp only
      rw [ih (i + 1) r0.vd (fun j hj => h j (by omega))]

theorem vsl_open_fails_validation (K : Params) (vd : VSL_data) (e : OpenEnv) (diag : Int)
    (hdet : vd.vsl_lh = NULL) (hf : fails_validation K e) :
    ∃ r, vsl_open K vd e diag = .ok r ∧ r.val = 1 ∧ r.vd.vsl_lh = NULL := by
  obtain ⟨h1, h2, h3⟩ := hf
  unfold vsl_open
  dsimp only
  rw [if_neg (by simp [hdet]), if_neg (by omega), if_neg (by simp [h2])]
  by_cases hreg : S_ISREG e.st.st_mode = true
  · by_cases hrd : e.read_ret = (K.sizeof_vsm_head : Int)
    · have hmg : e.slh.magic ≠ K.VSM_HEAD_MAGIC := by
        rcases h3 with h | h | h
        · rw [hreg] at h; exact absurd h (by simp)
        · exact absurd hrd h
        · exact h
      simp [hreg, hrd, hmg, hdet]
    · simp [hreg, hrd, hdet]
  · simp [hreg, hdet]

theorem vsl_open_valid (K : Params) (vd : VSL_data) (e : OpenEnv) (diag : Int)
    (hdet : vd.vsl_lh = NULL) (hv : valid_file K e) :
    ∃ r, vsl_open K vd e diag = .ok r ∧ r.val = 0 ∧ r.vd.vsl_lh = e.mmap_ret ∧ r.diags = [] ∧
      r.vd.vsl_end = e.mmap_ret + e.slh.shm_size ∧ r.vd.alloc_seq = e.slh.alloc_seq := by
  obtain ⟨h1, h2, h3, h4, h5, h6, h7⟩ := hv
  unfold vsl_open
  dsimp only
  rw [if_neg (by simp [hdet]), if_neg (by omega), if_neg (by simp [h2])]
  simp [h3, h4, h5, h6, h7]

theorem attempt_after_failures (K : Params) (opens : Nat → OpenEnv) (diag : Int) (k i : Nat)
    (vd : VSL_data) (hdet : vd.vsl_lh = NULL)
    (hf : ∀ j, j < k → fails_validation K (opens (i + j)))
    (hv : valid_file K (opens (i + k))) :
    (∀ j, j < k → attempt_failed (attempt K opens diag i vd j)) ∧
      ∃ r, attempt K opens diag i vd k = .ok r ∧ r.val = 0 ∧
        r.vd.vsl_lh = (opens (i + k)).mmap_ret ∧ r.diags = [] ∧
        r.vd.vsl_end = (opens (i + k)).mmap_ret + (opens (i + k)).slh.shm_size ∧
        r.vd.alloc_seq = (opens (i + k)).slh.alloc_seq := by
  induction k generalizing i vd with
  | zero =>
    refine ⟨fun j hj => absurd hj (Nat.not_lt_zero j), ?_⟩
    simpa [attempt] using vsl_open_valid K vd (opens i) (attempt_flag diag i) hdet hv
  | succ k ih =>
    obtain ⟨r0, hr0, hval, hlh⟩ :=
      vsl_open_fails_validation K vd (opens i) (attempt_flag diag i) hdet (hf 0 (Nat.succ_pos k))
    have hstep : ∀ j, attempt K opens diag i vd (j + 1) =
        attempt K opens diag (i + 1) r0.vd j :=
      fun j => attempt_succ_of_ok K opens diag i j vd r0 hr0
    have hi : ∀ j, i + 1 + j = i + (j + 1) := fun j => by omega
    obtain ⟨ihf, ihr⟩ := ih (i + 1) r0.vd hlh
      (fun j hj => by rw [hi]; exact hf (j + 1) (by omega))
      (by rw [hi]; exact hv)
    constructor
    · intro j hj
      cases j with
      | zero => exact ⟨r0, by simp [attempt, hr0], by omega⟩
      | succ j =>
        rw [hstep]
        exact ihf j (by omega)
    · rw [hstep]
      simpa [hi] using ihr

theorem attempt_congr (K : Params) (opens opens2 : Nat → OpenEnv) (diag : Int) (j i : Nat)
    (vd : VSL_data) (h : ∀ m, m ≤ i + j → opens2 m = opens m) :
    attempt K opens2 diag i vd j = attempt K opens diag i vd j := by
  induction j generalizing i vd with
  | zero => simp [attempt, h i (by omega)]
  | succ j ih =>
    simp only [attempt, h i (by omega)]
    cases hv : vsl_open K vd (opens i) (attempt_flag diag i) with
    | error s => rfl
    | ok r0 => exact ih (i + 1) r0.vd (fun m hm => h m (by omega))

theorem attempt_quiet (K : Params) (opens : Nat → OpenEnv) (diag : Int) (k i : Nat)
    (vd : VSL_data) (r : Ret Int) (hq : i + k < 5 ∨ diag = 0)
    (h : attempt K opens diag i vd k = .ok r) : r.diags = [] := by
  induction k generalizing i vd with
  | zero =>
    have hflag : attempt_flag diag i = 0 := by
      rcases hq with hq | hq
      · exact attempt_flag_lt diag i (by omega)
      · simp [attempt_flag, hq]
    simp only [attempt, hflag] at h
    exact vsl_open_quiet K vd (opens i) r h
  | succ k ih =>
    simp only [attempt] at h
    cases hv : vsl_open K vd (opens i) (attempt_flag diag i) with
    | error s => simp [hv] at h
    | ok r0 =>
      simp only [hv] at h
      exact ih (i + 1) r0.vd (by omega) h

theorem VSL_Close_attached (vd : VSL_data) (e : CloseEnv) (hat : vd.vsl_lh ≠ NULL)
    (hfd : 0 ≤ vd.vsl_fd) (hmun : e.munmap_ret = 0) (hclo : e.close_ret = 0) :
    VSL_Close vd e = .ok (closed vd) := by
  unfold VSL_Close
  dsimp only
  rw [if_neg hat, if_neg (by simp [hmun]), if_neg (by simp [hfd]), if_neg (by simp [hclo])]
  rfl

theorem VSL_ReOpen_rotated (K : Params) (vd : VSL_data) (e : ReOpenEnv) (diag : Int)
    (hat : vd.vsl_lh ≠ NULL) (hfd : 0 ≤ vd.vsl_fd) (hst : e.stat_ret = 0)
    (hid : ¬ (e.st.st_dev = vd.fstat.st_dev ∧ e.st.st_ino = vd.fstat.st_ino))
    (hmun : e.close_env.munmap_ret = 0) (hclo : e.close_env.close_ret = 0) :
    VSL_ReOpen K vd e diag = VSL_ReOpen_loop K e.opens diag 5 0 (closed vd) := by
  unfold VSL_ReOpen
  rw [if_neg hat, if_neg (by simp [hst]), if_neg hid,
    VSL_Close_attached vd e.close_env hat hfd hmun hclo]

/-- C7: on an attached handle whose backing file was replaced, `VSL_ReOpen`
closes the segment and then makes at most six open attempts, the first five
with diagnostics suppressed and the sixth with the caller's flag. It returns 1
as soon as an attempt returns 0, without looking at later attempts; it returns
only 1 or -1, and -1 exactly when all six attempts fail; a diagnostic can only
come from the sixth attempt; and when the replacement file fails validation
for fewer than six attempts and is valid at the next, it returns 1, attached
to the mapping of that attempt. -/
theorem VSL_ReOpen_bounded_retry (K : Params) (vd : VSL_data) (e : ReOpenEnv) (diag : Int)
    (hat : vd.vsl_lh ≠ NULL) (hfd : 0 ≤ vd.vsl_fd) (hst : e.stat_ret = 0)
    (hid : ¬ (e.st.st_dev = vd.fstat.st_dev ∧ e.st.st_ino = vd.fstat.st_ino))
    (hmun : e.close_env.munmap_ret = 0) (hclo : e.close_env.close_ret = 0) :
    VSL_Close vd e.close_env = .ok (closed vd) ∧
    (∀ k r, k < 6 →
      (∀ j, j < k → attempt_failed (attempt K e.opens diag 0 (closed vd) j)) →
      attempt K e.opens diag 0 (closed vd) k = .ok r → r.val = 0 →
      ∀ e2 : ReOpenEnv, e2.stat_ret = e.stat_ret → e2.st = e.st →
        e2.close_env = e.close_env → (∀ i, i ≤ k → e2.opens i = e.opens i) →
        VSL_ReOpen K vd e2 diag = .ok ⟨1, r.vd, r.diags⟩) ∧
    ((∃ R, VSL_ReOpen K vd e diag = .ok R ∧ R.val = -1) ↔
      ∀ j, j < 6 → attempt_failed (attempt K e.opens diag 0 (closed vd) j)) ∧
    (∀ R, VSL_ReOpen K vd e diag = .ok R → R.val = 1 ∨ R.val = -1) ∧
    (∀ e2 : ReOpenEnv, e2.stat_ret = e.stat_ret → e2.st = e.st →
      e2.close_env = e.close_env → (∀ i, i < 6 → e2.opens i = e.opens i) →
      VSL_ReOpen K vd e2 diag = VSL_ReOpen K vd e diag) ∧
    (∀ R, VSL_ReOpen K vd e diag = .ok R → R.diags ≠ [] →
      diag ≠ 0 ∧ (∀ j, j < 5 → attempt_failed (attempt K e.opens diag 0 (closed vd) j)) ∧
        ∃ r, attempt K e.opens diag 0 (closed vd) 5 = .ok r ∧ R.diags = r.diags) ∧
    (∀ k, k < 6 → (∀ j, j < k → fails_validation K (e.opens j)) → valid_file K (e.opens k) →
      ∃ R, VSL_ReOpen K vd e diag = .ok R ∧ R.val = 1 ∧
        R.vd.vsl_lh = (e.opens k).mmap_ret ∧ R.diags = []) := by
  have hre := VSL_ReOpen_rotated K vd e diag hat hfd hst hid hmun hclo
  have hchar := fun R => VSL_ReOpen_loop_char K e.opens diag 5 0 (closed vd) rfl R
  have hsucc : ∀ k r, k < 6 →
      (∀ j, j < k → attempt_failed (attempt K e.opens diag 0 (closed vd) j)) →
      attempt K e.opens diag 0 (closed vd) k = .ok r → r.val = 0 →
      VSL_ReOpen K vd e diag = .ok ⟨1, r.vd, r.diags⟩ := by
    intro k r hk hfail hatt h0
    rw [hre]
    exact (hchar _).mpr ⟨k, r, by omega, hfail, hatt, Or.inl ⟨h0, rfl⟩⟩
  refine ⟨VSL_Close_attached vd e.close_env hat hfd hmun hclo, ?_, ?_, ?_, ?_, ?_, ?_⟩
  · intro k r hk hfail hatt h0 e2 h1 h2 h3 h4
    rw [VSL_ReOpen_rotated K vd e2 diag hat hfd (by rw [h1, hst]) (by rw [h2]; exact hid)
      (by rw [h3]; exact hmun) (by rw [h3]; exact hclo)]
    refine (VSL_ReOpen_loop_char K e2.opens diag 5 0 (closed vd) rfl _).mpr
      ⟨k, r, by omega, ?_, ?_, Or.inl ⟨h0, rfl⟩⟩
    · intro j hj
      rw [attempt_congr K e.opens e2.opens diag j 0 (closed vd) (fun m hm => h4 m (by omega))]
      exact hfail j hj
    · rw [attempt_congr K e.opens e2.opens diag k 0 (closed vd) (fun m hm => h4 m (by omega))]
      exact hatt
  · constructor
    · rintro ⟨R, hR, hval⟩
      rw [hre] at hR
      obtain ⟨k, r, hk, hfail, hatt, hor⟩ := (hchar R).mp hR
      rcases hor with ⟨-, h2⟩ | ⟨h1, h2, -⟩
      · rw [h2] at hval
        simp at hval
      · subst h2
        intro j hj
        by_cases hj5 : j < 5
        · exact hfail j hj5
        · have : j = 5 := by omega
          subst this
          exact ⟨r, hatt, h1⟩
    · intro hall
      obtain ⟨r, hr, hne⟩ := hall 5 (by omega)
      refine ⟨⟨-1, r.vd, r.diags⟩, ?_, rfl⟩
      rw [hre]
      exact (hchar _).mpr ⟨5, r, le_refl _, fun j hj => hall j (by omega), hr,
        Or.inr ⟨hne, rfl, rfl⟩⟩
  · intro R hR
    rw [hre] at hR
    exact VSL_ReOpen_loop_val K e.opens diag 5 0 (closed vd) R hR
  · intro e2 h1 h2 h3 h4
    rw [hre, VSL_ReOpen_rotated K vd e2 diag hat hfd (by rw [h1, hst]) (by rw [h2]; exact hid)
      (by rw [h3]; exact hmun) (by rw [h3]; exact hclo)]
    exact VSL_ReOpen_loop_congr K e.opens e2.opens diag 5 0 (closed vd)
      (fun j hj => h4 j (by omega))
  · intro R hR hdg
    rw [hre] at hR
    obtain ⟨k, r, hk, hfail, hatt, hor⟩ := (hchar R).mp hR
    have hRd : R.diags = r.diags := by
      rcases hor with ⟨-, h2⟩ | ⟨-, -, h2⟩ <;> rw [h2]
    have hk5 : k = 5 ∧ diag ≠ 0 := by
      by_contra hcon
      have hq : 0 + k < 5 ∨ diag = 0 := by
        by_cases hd : diag = 0
        · exact Or.inr hd
        · left
          have : k ≠ 5 := fun h5 => hcon ⟨h5, hd⟩
          omega
      exact hdg (hRd.trans (attempt_quiet K e.opens diag k 0 (closed vd) r hq hatt))
    obtain ⟨h5, hd⟩ := hk5
    subst h5
    exact ⟨hd, hfail, r, hatt, hRd⟩
  · intro k hk hf hv
    obtain ⟨hfail, r, hatt, h0, hlh, hdg, -, -⟩ :=
      attempt_after_failures K e.opens diag k 0 (closed vd) rfl
        (fun j hj => by rw [Nat.zero_add]; exact hf j hj) (by rw [Nat.zero_add]; exact hv)
    refine ⟨⟨1, r.vd, r.diags⟩, hsucc k r hk hfail hatt h0, rfl, ?_, hdg⟩
    simpa using hlh

/-- Witness of C7: the path was replaced by a file that does not carry the
header magic during three attempts and is valid at the fourth. -/
theorem VSL_ReOpen_bounded_retry_witness :
    VSL_Close vd_scn ⟨0, 0⟩ = .ok (closed vd_scn) ∧
      ∃ R, VSL_ReOpen K_scn vd_scn
          (rot_env (fun i => if i < 3 then e_bad_magic else e_valid)) 1 = .ok R ∧
        R.val = 1 ∧ R.vd.vsl_lh = 4096 ∧ R.diags = [] :=
  ⟨(VSL_ReOpen_bounded_retry K_scn vd_scn
      (rot_env (fun i => if i < 3 then e_bad_magic else e_valid)) 1
      (by decide) (by decide) rfl (by decide) rfl rfl).1,
    (VSL_ReOpen_bounded_retry K_scn vd_scn
      (rot_env (fun i => if i < 3 then e_bad_magic else e_valid)) 1
      (by decide) (by decide) rfl (by decide) rfl rfl).2.2.2.2.2.2 3 (by decide)
      (by decide) (by decide)⟩

/-! ## Named allocation lookup -/

theorem strcmp_eq_zero (a b : List Char) : strcmp a b = 0 ↔ a = b := by
  induction a generalizing b with
  | nil => cases b <;> simp [strcmp]
  | cons x xs ih =>
    cases b with
    | nil => simp [strcmp]
    | cons y ys =>
      by_cases hxy : x = y
      · simp [strcmp, hxy, ih]
      · by_cases hlt : x.toNat < y.toNat <;> simp [strcmp, hxy, hlt]

theorem find_body_iff (c : vsm_chunk) (class_ : List Char) (type ident : Option (List Char)) :
    find_body c class_ type ident = true ↔ spec_matches c class_ type ident := by
  unfold find_body spec_matches
  cases type <;> cases ident <;> simp [arg_differs, strcmp_eq_zero]

theorem chunk_seq_from_head (K : Params) (shm : Shm) (vend p : Nat) (l : List Nat)
    (h : chunk_seq_from K shm vend p l) :
    ∃ t, l = p :: t ∧ (shm.chunk p).magic = K.VSM_CHUNK_MAGIC := by
  match l, h with
  | [q], h =>
    simp only [chunk_seq_from] at h
    exact ⟨[], by rw [h.1], h.2.1⟩
  | q :: r :: rest, h =>
    simp only [chunk_seq_from] at h
    exact ⟨r :: rest, by rw [h.1], h.2.1⟩

theorem chunk_seq_from_ne_null (K : Params) (shm : Shm) (vend : Nat) (l : List Nat) (p : Nat)
    (hp : p ≠ NULL) (h : chunk_seq_from K shm vend p l) : ∀ q ∈ l, q ≠ NULL := by
  induction l generalizing p with
  | nil => simp
  | cons a t ih =>
    cases t with
    | nil =>
      simp only [chunk_seq_from] at h
      intro q hq
      simp only [List.mem_singleton] at hq
      rw [hq, h.1]; exact hp
    | cons r rest =>
      simp only [chunk_seq_from] at h
      obtain ⟨h1, -, -, h4⟩ := h
      intro q hq
      rcases List.mem_cons.mp hq with hq | hq
      · rw [hq, h1]; exact hp
      · exact ih (p + (shm.chunk p).len) (by unfold NULL at hp ⊢; omega) h4 q hq

theorem vsl_find_alloc_loop_seq (K : Params) (vd : VSL_data) (shm : Shm) (class_ : List Char)
    (type ident : Option (List Char)) (hm : vd.magic = K.VSL_MAGIC)
    (hep : vd.alloc_seq = shm.alloc_seq) (l : List Nat) (p fuel : Nat) (hp : p ≠ NULL)
    (hl : chunk_seq_from K shm vd.vsl_end p l) (hf : l.length < fuel) :
    vsl_find_alloc_loop K vd shm class_ type ident fuel p =
      .ok ((l.find? (fun q => find_body (shm.chunk q) class_ type ident)).getD NULL) := by
  induction l generalizing p fuel with
  | nil => exact absurd hl (by simp [chunk_seq_from])
  | cons a t ih =>
    obtain ⟨f, rfl⟩ : ∃ f, fuel = f + 1 := ⟨fuel - 1, by simp at hf; omega⟩
    cases t with
    | nil =>
      simp only [chunk_seq_from] at hl
      obtain ⟨h1, h2, h3⟩ := hl
      subst h1
      obtain ⟨g, rfl⟩ : ∃ g, f = g + 1 := ⟨f - 1, by simp at hf; omega⟩
      unfold vsl_find_alloc_loop
      by_cases hb : find_body (shm.chunk a) class_ type ident = true
      · simp [hp, CHECK_OBJ_NOTNULL, h2, hb]
      · have hit : vsl_itern K vd shm a = .ok NULL := by
          simp [vsl_itern, hm, hep, CHECK_OBJ_NOTNULL, hp, h2, VSM_NEXT, h3]
        simp [hp, CHECK_OBJ_NOTNULL, h2, hb, hit, vsl_find_alloc_loop]
    | cons r rest =>
      simp only [chunk_seq_from] at hl
      obtain ⟨h1, h2, h3, h4⟩ := hl
      subst h1
      obtain ⟨t2, ht2, hmg⟩ := chunk_seq_from_head K shm vd.vsl_end _ _ h4
      have hnn : a + (shm.chunk a).len ≠ NULL := by unfold NULL at hp ⊢; omega
      unfold vsl_find_alloc_loop
      by_cases hb : find_body (shm.chunk a) class_ type ident = true
      · simp [hp, CHECK_OBJ_NOTNULL, h2, hb]
      · have hit : vsl_itern K vd shm a = .ok (a + (shm.chunk a).len) := by
          simp [vsl_itern, hm, hep, CHECK_OBJ_NOTNULL, hp, h2, VSM_NEXT, h3, hnn, hmg]
        have hrec := ih (a + (shm.chunk a).len) f hnn h4 (by simp at hf ⊢; omega)
        simp [hp, CHECK_OBJ_NOTNULL, h2, hb, hit, hrec]

/-- C3: on an attached segment whose epoch is the local one and whose chunk
sequence `l` is well formed, `vsl_find_alloc` with enough fuel returns; the
result is `NULL` exactly when no chunk of the sequence matches, and otherwise
it is a matching chunk with no matching chunk before it in storage order. With
`type` and `ident` null this is the first chunk of the given class. -/
theorem vsl_find_alloc_first_match (K : Params) (vd : VSL_data) (shm : Shm)
    (class_ : List Char) (type ident : Option (List Char)) (l : List Nat) (fuel : Nat)
    (hm : vd.magic = K.VSL_MAGIC) (hat : vd.vsl_lh ≠ NULL)
    (hep : vd.alloc_seq = shm.alloc_seq)
    (hl : chunk_seq_from K shm vd.vsl_end (head_addr K vd) l) (hf : l.length < fuel) :
    ∃ r, vsl_find_alloc K vd shm class_ type ident fuel = .ok r ∧
      (r = NULL ↔ ∀ q ∈ l, ¬ spec_matches (shm.chunk q) class_ type ident) ∧
      (r ≠ NULL → spec_matches (shm.chunk r) class_ type ident ∧
        ∃ pre post, l = pre ++ r :: post ∧
          ∀ q ∈ pre, ¬ spec_matches (shm.chunk q) class_ type ident) ∧
      (type = none → ident = none → r ≠ NULL → (shm.chunk r).class_ = class_ ∧
        ∃ pre post, l = pre ++ r :: post ∧ ∀ q ∈ pre, (shm.chunk q).class_ ≠ class_) := by
  have hhead : head_addr K vd ≠ NULL := by
    unfold head_addr
    unfold NULL at hat ⊢
    omega
  obtain ⟨t, ht, hmg⟩ := chunk_seq_from_head K shm vd.vsl_end _ _ hl
  have hit0 : vsl_iter0 K vd shm = .ok (head_addr K vd) := by
    simp [vsl_iter0, hm, hep, CHECK_OBJ_NOTNULL, hhead, hmg]
  have hres := vsl_find_alloc_loop_seq K vd shm class_ type ident hm hep l (head_addr K vd)
    fuel hhead hl hf
  have hfind : vsl_find_alloc K vd shm class_ type ident fuel =
      .ok ((l.find? (fun q => find_body (shm.chunk q) class_ type ident)).getD NULL) := by
    unfold vsl_find_alloc
    rw [if_neg hat, hit0]
    exact hres
  have hnn := chunk_seq_from_ne_null K shm vd.vsl_end l _ hhead hl
  refine ⟨_, hfind, ?_⟩
  cases hfd : l.find? (fun q => find_body (shm.chunk q) class_ type ident) with
  | none =>
    have hnone := List.find?_eq_none.mp hfd
    have hno : ∀ q ∈ l, ¬ spec_matches (shm.chunk q) class_ type ident := by
      intro q hq hsm
      exact hnone q hq ((find_body_iff _ _ _ _).mpr hsm)
    simp only [Option.getD_none, true_iff, ne_eq, not_true_eq_false, false_implies,
      implies_true, and_true]
    exact hno
  | some r =>
    obtain ⟨hpr, pre, post, hsplit, hpre⟩ := List.find?_eq_some.mp hfd
    have hr : r ∈ l := List.mem_of_find?_eq_some hfd
    have hrn : r ≠ NULL := hnn r hr
    have hsm : spec_matches (shm.chunk r) class_ type ident := (find_body_iff _ _ _ _).mp hpr
    have hpre2 : ∀ q ∈ pre, ¬ spec_matches (shm.chunk q) class_ type ident := by
      intro q hq hq2
      have := hpre q hq
      rw [(find_body_iff _ _ _ _).mpr hq2] at this
      simp at this
    simp only [Option.getD_some]
    refine ⟨⟨fun h => absurd h hrn, fun h => absurd hsm (h r hr)⟩,
      fun _ => ⟨hsm, pre, post, hsplit, hpre2⟩, ?_⟩
    intro hty hid _
    refine ⟨hsm.1, pre, post, hsplit, ?_⟩
    intro q hq hcl
    apply hpre2 q hq
    subst hty hid
    exact ⟨hcl, by simp, by simp⟩

/-- Witness of C3: on the segment with two chunks, the lookup of class "log"
returns the second chunk, at 4160. -/
theorem vsl_find_alloc_first_match_witness :
    chunk_seq_from K_scn shm_two vd_two.vsl_end (head_addr K_scn vd_two) [4128, 4160] ∧
      vsl_find_alloc K_scn vd_two shm_two ['l', 'o', 'g'] none none 3 = .ok 4160 ∧
      ∃ r, vsl_find_alloc K_scn vd_two shm_two ['l', 'o', 'g'] none none 3 = .ok r ∧
        (r = NULL ↔ ∀ q ∈ [4128, 4160], ¬ spec_matches (shm_two.chunk q) ['l', 'o', 'g'] none none) ∧
        (r ≠ NULL → spec_matches (shm_two.chunk r) ['l', 'o', 'g'] none none ∧
          ∃ pre post, [4128, 4160] = pre ++ r :: post ∧
            ∀ q ∈ pre, ¬ spec_matches (shm_two.chunk q) ['l', 'o', 'g'] none none) ∧
        ((none : Option (List Char)) = none → (none : Option (List Char)) = none → r ≠ NULL →
          (shm_two.chunk r).class_ = ['l', 'o', 'g'] ∧
          ∃ pre post, [4128, 4160] = pre ++ r :: post ∧
            ∀ q ∈ pre, (shm_two.chunk q).class_ ≠ ['l', 'o', 'g']) :=
  ⟨by simp [chunk_seq_from, head_addr, K_scn, vd_two, vd_scn, shm_two, top_chunk],
    by decide,
    vsl_find_alloc_first_match K_scn vd_two shm_two ['l', 'o', 'g'] none none [4128, 4160] 3
      (by decide) (by decide) (by decide)
      (by simp [chunk_seq_from, head_addr, K_scn, vd_two, vd_scn, shm_two, top_chunk])
      (by decide)⟩

/-! ## Termination of the iteration -/

theorem walk_addr_split (shm : Shm) (p vend : Nat) (n : Nat) :
    (∀ i, 1 ≤ i → i ≤ n → walk_addr shm p i < vend) ∨
      ∃ k, 1 ≤ k ∧ k ≤ n ∧ vend ≤ walk_addr shm p k ∧
        ∀ i, 1 ≤ i → i < k → walk_addr shm p i < vend := by
  induction n with
  | zero => left; intro i h1 h2; omega
  | succ n ih =>
    rcases ih with h | ⟨k, h1, h2, h3, h4⟩
    · by_cases hn : walk_addr shm p (n + 1) < vend
      · left
        intro i hi1 hi2
        by_cases hin : i ≤ n
        · exact h i hi1 hin
        · have : i = n + 1 := by omega
          subst this; exact hn
      · right
        exact ⟨n + 1, by omega, le_refl _, by omega, fun i hi1 hi2 => h i hi1 (by omega)⟩
    · right
      exact ⟨k, h1, by omega, h3, h4⟩

theorem walk_addr_grows (shm : Shm) (p vend : Nat) (n : Nat)
    (hlen : ∀ j, (j = 0 ∨ walk_addr shm p j < vend) → 0 < (shm.chunk (walk_addr shm p j)).len)
    (hb : ∀ i, 1 ≤ i → i ≤ n → walk_addr shm p i < vend) :
    p + n ≤ walk_addr shm p n := by
  induction n with
  | zero => simp [walk_addr]
  | succ n ih =>
    have h1 := ih (fun i hi1 hi2 => hb i hi1 (by omega))
    have h2 : 0 < (shm.chunk (walk_addr shm p n)).len := by
      apply hlen
      by_cases hn : n = 0
      · exact Or.inl hn
      · exact Or.inr (hb n (by omega) (by omega))
    simp only [walk_addr]
    omega

theorem walk_addr_ne_null (shm : Shm) (p : Nat) (hp : p ≠ NULL) (j : Nat) :
    walk_addr shm p j ≠ NULL := by
  induction j with
  | zero => exact hp
  | succ j ih =>
    simp only [walk_addr]
    unfold NULL at ih ⊢
    omega

theorem vsl_find_alloc_loop_null (K : Params) (vd : VSL_data) (shm : Shm) (class_ : List Char)
    (type ident : Option (List Char)) (f : Nat) :
    vsl_find_alloc_loop K vd shm class_ type ident (f + 1) NULL = .ok NULL := by
  simp [vsl_find_alloc_loop]

theorem vsl_find_alloc_loop_returns (K : Params) (vd : VSL_data) (shm : Shm)
    (class_ : List Char) (type ident : Option (List Char)) (w : Nat → Nat) (k : Nat)
    (hstep : ∀ j, j < k → w j ≠ NULL ∧ (shm.chunk (w j)).magic = K.VSM_CHUNK_MAGIC ∧
      vsl_itern K vd shm (w j) = .ok (if j + 1 < k then w (j + 1) else NULL))
    (m j fuel : Nat) (hjm : j + m = k) (hf : m < fuel) :
    ∃ r, vsl_find_alloc_loop K vd shm class_ type ident fuel
      (if j < k then w j else NULL) = .ok r := by
  induction m generalizing j fuel with
  | zero =>
    obtain ⟨f, rfl⟩ : ∃ f, fuel = f + 1 := ⟨fuel - 1, by omega⟩
    rw [if_neg (by omega)]
    exact ⟨NULL, vsl_find_alloc_loop_null K vd shm class_ type ident f⟩
  | succ m ih =>
    obtain ⟨f, rfl⟩ : ∃ f, fuel = f + 1 := ⟨fuel - 1, by omega⟩
    have hj : j < k := by omega
    obtain ⟨h1, h2, h3⟩ := hstep j hj
    rw [if_pos hj]
    unfold vsl_find_alloc_loop
    by_cases hb : find_body (shm.chunk (w j)) class_ type ident = true
    · exact ⟨w j, by simp [h1, CHECK_OBJ_NOTNULL, h2, hb]⟩
    · obtain ⟨r, hr⟩ := ih (j + 1) f (by omega) (by omega)
      exact ⟨r, by simp [h1, CHECK_OBJ_NOTNULL, h2, hb, h3, hr]⟩

theorem iter_steps_walk (K : Params) (vd : VSL_data) (shm : Shm) (w : Nat → Nat) (k : Nat)
    (h0 : vsl_iter0 K vd shm = .ok (if 0 < k then w 0 else NULL))
    (hstep : ∀ j, j < k → vsl_itern K vd shm (w j) = .ok (if j + 1 < k then w (j + 1) else NULL))
    (j : Nat) (hj : j ≤ k) :
    iter_steps K vd shm j = .ok (if j < k then w j else NULL) := by
  induction j with
  | zero => simpa [iter_steps] using h0
  | succ j ih =>
    have hjk : j < k := by omega
    simp only [iter_steps, ih (by omega), if_pos hjk]
    exact hstep j hjk

/-- C4, amended: on an attached segment in which every chunk of the walk that
is looked at (the first chunk, and each later one that lies below `vsl_end`)
carries the chunk magic and has `len > 0`, the iteration `first(), advance(),
...` reaches `NULL` after `k` steps with `k` at most the size of the region
(at least 1), having yielded `k` chunks; and `vsl_find_alloc` returns for
every query once given more than `k` units of fuel. -/
theorem iteration_terminates (K : Params) (vd : VSL_data) (shm : Shm)
    (hm : vd.magic = K.VSL_MAGIC) (hat : vd.vsl_lh ≠ NULL)
    (hv : ∀ j, (j = 0 ∨ walk_addr shm (head_addr K vd) j < vd.vsl_end) →
      (shm.chunk (walk_addr shm (head_addr K vd) j)).magic = K.VSM_CHUNK_MAGIC ∧
        0 < (shm.chunk (walk_addr shm (head_addr K vd) j)).len) :
    ∃ k, k ≤ max 1 (vd.vsl_end - head_addr K vd) ∧ k ≤ max 1 (vd.vsl_end - vd.vsl_lh) ∧
      iter_steps K vd shm k = .ok NULL ∧
      (∀ j, j < k → iter_steps K vd shm j = .ok (walk_addr shm (head_addr K vd) j) ∧
        walk_addr shm (head_addr K vd) j ≠ NULL) ∧
      (∀ (class_ : List Char) (type ident : Option (List Char)) (fuel : Nat), k < fuel →
        ∃ r, vsl_find_alloc K vd shm class_ type ident fuel = .ok r) := by
  have hhead : head_addr K vd ≠ NULL := by
    unfold head_addr
    unfold NULL at hat ⊢
    omega
  by_cases hep : vd.alloc_seq = shm.alloc_seq
  · -- the epoch is current: the walk is followed until it passes `vsl_end`
    obtain ⟨k, hk1, hkN, hkend, hkbelow⟩ :
        ∃ k, 1 ≤ k ∧ k ≤ max 1 (vd.vsl_end - head_addr K vd) ∧
          vd.vsl_end ≤ walk_addr shm (head_addr K vd) k ∧
          ∀ i, 1 ≤ i → i < k → walk_addr shm (head_addr K vd) i < vd.vsl_end := by
      rcases walk_addr_split shm (head_addr K vd) vd.vsl_end
        (max 1 (vd.vsl_end - head_addr K vd)) with h | h
      · exfalso
        have hg := walk_addr_grows shm (head_addr K vd) vd.vsl_end
          (max 1 (vd.vsl_end - head_addr K vd)) (fun j hj => (hv j hj).2) h
        have hlt := h (max 1 (vd.vsl_end - head_addr K vd)) (le_max_left _ _) (le_refl _)
        have := le_max_right 1 (vd.vsl_end - head_addr K vd)
        omega
      · exact h
    have hvalid : ∀ j, j < k →
        (shm.chunk (walk_addr shm (head_addr K vd) j)).magic = K.VSM_CHUNK_MAGIC := by
      intro j hj
      apply (hv j _).1
      by_cases hj0 : j = 0
      · exact Or.inl hj0
      · exact Or.inr (hkbelow j (by omega) hj)
    have hstep : ∀ j, j < k → walk_addr shm (head_addr K vd) j ≠ NULL ∧
        (shm.chunk (walk_addr shm (head_addr K vd) j)).magic = K.VSM_CHUNK_MAGIC ∧
        vsl_itern K vd shm (walk_addr shm (head_addr K vd) j) =
          .ok (if j + 1 < k then walk_addr shm (head_addr K vd) (j + 1) else NULL) := by
      intro j hj
      have hnn := walk_addr_ne_null shm (head_addr K vd) hhead j
      refine ⟨hnn, hvalid j hj, ?_⟩
      by_cases hj1 : j + 1 < k
      · have hlt := hkbelow (j + 1) (by omega) hj1
        have hnn1 := walk_addr_ne_null shm (head_addr K vd) hhead (j + 1)
        have hmg1 := hvalid (j + 1) hj1
        simp only [walk_addr] at hlt hnn1 hmg1
        simp [vsl_itern, hm, hep, CHECK_OBJ_NOTNULL, hnn, hvalid j hj, VSM_NEXT, hj1,
          walk_addr, hlt, hnn1, hmg1]
      · have hjk : j + 1 = k := by omega
        have hge := hkend
        rw [← hjk] at hge
        simp only [walk_addr] at hge
        simp [vsl_itern, hm, hep, CHECK_OBJ_NOTNULL, hnn, hvalid j hj, VSM_NEXT, hj1, hge]
    have h0 : vsl_iter0 K vd shm =
        .ok (if 0 < k then walk_addr shm (head_addr K vd) 0 else NULL) := by
      have := hvalid 0 (by omega)
      have hk0 : 0 < k := by omega
      simp only [walk_addr] at this
      simp [vsl_iter0, hm, hep, CHECK_OBJ_NOTNULL, hhead, this, walk_addr, hk0]
    have hsteps := iter_steps_walk K vd shm (walk_addr shm (head_addr K vd)) k h0
      (fun j hj => (hstep j hj).2.2)
    refine ⟨k, hkN, ?_, ?_, ?_, ?_⟩
    · have : vd.vsl_end - head_addr K vd ≤ vd.vsl_end - vd.vsl_lh := by
        unfold head_addr; omega
      exact le_trans hkN (max_le_max (le_refl _) this)
    · simpa using hsteps k (le_refl _)
    · intro j hj
      have := hsteps j (by omega)
      rw [if_pos hj] at this
      exact ⟨this, walk_addr_ne_null shm (head_addr K vd) hhead j⟩
    · intro class_ type ident fuel hf
      have := vsl_find_alloc_loop_returns K vd shm class_ type ident
        (walk_addr shm (head_addr K vd)) k hstep k 0 fuel (by omega) hf
      unfold vsl_find_alloc
      rw [if_neg hat, h0]
      exact this
  · -- the epoch has changed: `first()` is already `NULL`
    have h0 : vsl_iter0 K vd shm = .ok NULL := vsl_iter0_mismatch K vd shm hm hep
    refine ⟨0, Nat.zero_le _, Nat.zero_le _, by simpa [iter_steps] using h0,
      fun j hj => absurd hj (Nat.not_lt_zero j), ?_⟩
    intro class_ type ident fuel hf
    obtain ⟨f, rfl⟩ : ∃ f, fuel = f + 1 := ⟨fuel - 1, by omega⟩
    refine ⟨NULL, ?_⟩
    unfold vsl_find_alloc
    rw [if_neg hat, h0]
    exact vsl_find_alloc_loop_null K vd shm class_ type ident f

theorem walk_addr_scn (j : Nat) : walk_addr shm_scn 4128 (j + 1) = 4160 := by
  induction j with
  | zero => decide
  | succ j ih =>
    rw [walk_addr, ih]
    decide

/-- Witness of C4 (amended): the segment of the scenario, whose single chunk
has `len = 32`; the iteration yields it and then `NULL`. -/
theorem iteration_terminates_witness :
    iter_steps K_scn vd_scn shm_scn 0 = .ok 4128 ∧ iter_steps K_scn vd_scn shm_scn 1 = .ok NULL ∧
      ∃ k, k ≤ max 1 (vd_scn.vsl_end - head_addr K_scn vd_scn) ∧
        k ≤ max 1 (vd_scn.vsl_end - vd_scn.vsl_lh) ∧
        iter_steps K_scn vd_scn shm_scn k = .ok NULL ∧
        (∀ j, j < k →
          iter_steps K_scn vd_scn shm_scn j =
            .ok (walk_addr shm_scn (head_addr K_scn vd_scn) j) ∧
          walk_addr shm_scn (head_addr K_scn vd_scn) j ≠ NULL) ∧
        (∀ (class_ : List Char) (type ident : Option (List Char)) (fuel : Nat), k < fuel →
          ∃ r, vsl_find_alloc K_scn vd_scn shm_scn class_ type ident fuel = .ok r) :=
  ⟨by decide, by decide,
    iteration_terminates K_scn vd_scn shm_scn (by decide) (by decide) (by
      intro j hj
      cases j with
      | zero => decide
      | succ j =>
        exfalso
        have h : head_addr K_scn vd_scn = 4128 := by decide
        rw [h, walk_addr_scn j] at hj
        rcases hj with hj | hj
        · omega
        · revert hj
          decide)⟩

theorem iter_steps_zero_len (n : Nat) : iter_steps K_scn vd_scn shm_zero n = .ok 4128 := by
  induction n with
  | zero => decide
  | succ n ih =>
    rw [iter_steps, ih]
    decide

theorem find_loop_zero_len (fuel : Nat) :
    vsl_find_alloc_loop K_scn vd_scn shm_zero ['l', 'o', 'g'] none none fuel 4128 =
      .error .out_of_fuel := by
  induction fuel with
  | zero => rfl
  | succ f ih =>
    have hit : vsl_itern K_scn vd_scn shm_zero 4128 = .ok 4128 := by decide
    have hb : find_body (shm_zero.chunk 4128) ['l', 'o', 'g'] none none = false := by decide
    have hc : CHECK_OBJ_NOTNULL 4128 (shm_zero.chunk 4128).magic K_scn.VSM_CHUNK_MAGIC = true := by
      decide
    have hn : (4128 : Nat) ≠ NULL := by decide
    rw [vsl_find_alloc_loop, if_neg hn]
    simp only [hc, hb, hit, ih]
    simp

/-- C4 as stated fails: in a segment whose first chunk carries the chunk magic
and has `len = 0`, every `advance()` yields that same chunk again, the
iteration never reaches `NULL`, and the scan of `vsl_find_alloc` for a class
that is not there exhausts any amount of fuel. -/
theorem iteration_zero_len_never_ends :
    (shm_zero.chunk 4128).magic = K_scn.VSM_CHUNK_MAGIC ∧
      (¬ ∃ k, iter_steps K_scn vd_scn shm_zero k = .ok NULL) ∧
      (∀ n, iter_steps K_scn vd_scn shm_zero n = .ok 4128) ∧
      (∀ fuel, vsl_find_alloc K_scn vd_scn shm_zero ['l', 'o', 'g'] none none fuel =
        .error .out_of_fuel) := by
  refine ⟨by decide, ?_, iter_steps_zero_len, ?_⟩
  · rintro ⟨k, hk⟩
    rw [iter_steps_zero_len k] at hk
    revert hk
    decide
  · intro fuel
    have h0 : vsl_iter0 K_scn vd_scn shm_zero = .ok 4128 := by decide
    have hat : vd_scn.vsl_lh ≠ NULL := by decide
    rw [vsl_find_alloc, if_neg hat, h0]
    exact find_loop_zero_len fuel

/-! ## Payload address and length -/

theorem payload_len_mod (K : Params) (c : vsm_chunk) :
    (payload_len K c : Int) = ((c.len : Int) - (K.sizeof_vsm_chunk : Int)) % 4294967296 := by
  unfold payload_len
  omega

theorem payload_len_of_le (K : Params) (c : vsm_chunk) (h1 : K.sizeof_vsm_chunk ≤ c.len)
    (h2 : c.len < 4294967296) :
    payload_len K c = c.len - K.sizeof_vsm_chunk ∧ payload_len K c + K.sizeof_vsm_chunk = c.len := by
  unfold payload_len
  omega

/-- C10, amended: `VSL_Find_Alloc` stops when `vsl_find_alloc` stops; it
returns `NULL` with `*lenp` untouched exactly when `vsl_find_alloc` returns
`NULL`; otherwise it returns the address right after the header of the chunk
found and, when `lenp` is not null, stores `len - sizeof(struct vsm_chunk)`
reduced modulo 2^32, which is the number of payload bytes (stored length plus
header size equals `len`) when the chunk's `len` is at least the header
size. -/
theorem VSL_Find_Alloc_payload (K : Params) (vd : VSL_data) (shm : Shm) (class_ : List Char)
    (type ident : Option (List Char)) (lenp : Option Nat) (fuel : Nat)
    (hm : vd.magic = K.VSL_MAGIC) :
    (∀ s, vsl_find_alloc K vd shm class_ type ident fuel = .error s →
      VSL_Find_Alloc K vd shm class_ type ident lenp fuel = .error s) ∧
    (vsl_find_alloc K vd shm class_ type ident fuel = .ok NULL →
      VSL_Find_Alloc K vd shm class_ type ident lenp fuel = .ok (NULL, lenp)) ∧
    (∀ x, VSL_Find_Alloc K vd shm class_ type ident lenp fuel = .ok (NULL, x) →
      vsl_find_alloc K vd shm class_ type ident fuel = .ok NULL ∧ x = lenp) ∧
    (∀ sha, sha ≠ NULL → vsl_find_alloc K vd shm class_ type ident fuel = .ok sha →
      VSL_Find_Alloc K vd shm class_ type ident lenp fuel =
        .ok (sha + K.sizeof_vsm_chunk, lenp.map (fun _ => payload_len K (shm.chunk sha))) ∧
      sha + K.sizeof_vsm_chunk ≠ NULL ∧
      (payload_len K (shm.chunk sha) : Int) =
        (((shm.chunk sha).len : Int) - (K.sizeof_vsm_chunk : Int)) % 4294967296 ∧
      (K.sizeof_vsm_chunk ≤ (shm.chunk sha).len → (shm.chunk sha).len < 4294967296 →
        payload_len K (shm.chunk sha) = (shm.chunk sha).len - K.sizeof_vsm_chunk ∧
        payload_len K (shm.chunk sha) + K.sizeof_vsm_chunk = (shm.chunk sha).len)) := by
  have hmm : ¬ vd.magic ≠ K.VSL_MAGIC := by simp [hm]
  refine ⟨?_, ?_, ?_, ?_⟩
  · intro s hs
    unfold VSL_Find_Alloc
    rw [if_neg hmm, hs]
  · intro h
    unfold VSL_Find_Alloc
    rw [if_neg hmm, h]
    simp
  · intro x hx
    unfold VSL_Find_Alloc at hx
    rw [if_neg hmm] at hx
    cases hf : vsl_find_alloc K vd shm class_ type ident fuel with
    | error s => simp [hf] at hx
    | ok sha =>
      simp only [hf] at hx
      by_cases hn : sha = NULL
      · subst hn
        simp only [if_true, Except.ok.injEq, Prod.mk.injEq, true_and] at hx
        exact ⟨rfl, hx.symm⟩
      · rw [if_neg hn] at hx
        simp only [Except.ok.injEq, Prod.mk.injEq, VSM_PTR] at hx
        exfalso
        unfold NULL at hn hx
        omega
  · intro sha hn hf
    refine ⟨?_, ?_, payload_len_mod K _, payload_len_of_le K _⟩
    · unfold VSL_Find_Alloc
      rw [if_neg hmm, hf]
      simp [hn, VSM_PTR]
    · unfold NULL at hn ⊢
      omega

/-- Witness of C10 (amended): in the scenario the lookup of class "top"
returns the payload of the single chunk, right after its 24 byte header, with
length `32 - 24`. -/
theorem VSL_Find_Alloc_payload_witness :
    vsl_find_alloc K_scn vd_scn shm_scn ['t', 'o', 'p'] none none 2 = .ok 4128 ∧
      VSL_Find_Alloc K_scn vd_scn shm_scn ['t', 'o', 'p'] none none (some 0) 2 =
        .ok (4128 + 24, some (32 - 24)) :=
  ⟨by decide,
    ((VSL_Find_Alloc_payload K_scn vd_scn shm_scn ['t', 'o', 'p'] none none (some 0) 2
      (by decide)).2.2.2 4128 (by decide) (by decide)).1⟩

/-- C10 as stated fails: when the chunk found has `len = 8`, less than the 24
bytes of its header, the length stored is `2^32 - 16`; it is not "`len` minus
the header size" and adding the header size to it does not give `len`. -/
theorem VSL_Find_Alloc_short_chunk :
    (shm_short.chunk 4128).len = 8 ∧ K_scn.sizeof_vsm_chunk = 24 ∧
      VSL_Find_Alloc K_scn vd_scn shm_short ['t', 'o', 'p'] none none (some 0) 2 =
        .ok (4152, some 4294967280) ∧
      4294967280 + K_scn.sizeof_vsm_chunk ≠ (shm_short.chunk 4128).len ∧
      (4294967280 : Int) ≠ ((shm_short.chunk 4128).len : Int) - (K_scn.sizeof_vsm_chunk : Int) := by
  refine ⟨by decide, by decide, by decide, by decide, by decide⟩

end Vsl
